import Mathlib

/-!
# Verification of the anime recommendation engine (`animeml.py`)

This file gives a shallow embedding, in Lean 4, of the core of the
recommendation engine found in `src/animeml.py`:

* the record normalizer `create_tags` (tag-token generation per row),
* the title maps `title_to_index` / `title_to_index_lower` built with
  `pd.Series(df.index, index=df['title']).drop_duplicates()`,
* the query functions `recommend` and `search_titles`,
* the cosine-similarity matrix (`sklearn.metrics.pairwise.cosine_similarity`).

Modelling conventions:

* A dataset row is a `Row` whose fields are `Option`-valued: `none` models a
  missing/NaN cell (`pd.notna(...)` is `Option.isSome`).  Numeric cells that
  the code parses (`float(row['score'])`, `int(row['episodes'])`) are modelled
  already parsed, with `none` also covering an unparseable cell, since the code
  swallows the parse exception and behaves exactly as if the field were absent.
* Python floats are modelled as `ℚ` wherever the code only compares, sorts and
  rounds them (`recommend`); the real-valued cosine-similarity computation is
  modelled over `ℝ`.
* Fallible code paths are modelled with `Except`: the `ValueError` that
  `list.sort` raises when the keys are multi-element numpy arrays becomes an
  `Except.error`.
-/

/-- One dataset row.  Fields mirror the columns that `animeml.py` reads:
`title`, `genre`, `type`, `source`, `studio`, `score`, `episodes`, `aired`.
`none` models a missing (NaN) or — for `score`/`episodes` — unparseable cell. -/
structure Row where
  title : Option String
  genre : Option String
  type_ : Option String
  source : Option String
  studio : Option String
  score : Option ℚ
  episodes : Option Int
  aired : Option String
deriving DecidableEq

instance : Inhabited Row := ⟨⟨none, none, none, none, none, none, none, none⟩⟩

/-- Python's `str.lower()` (character-wise lowering; ASCII suffices for the
titles the claims mention).  Implemented over the character list so that the
kernel can evaluate it on concrete inputs. -/
def pyLower (s : String) : String :=
  String.mk (s.toList.map Char.toLower)

/-- `str.replace(',', ' ')`: a single-character replacement is a
character-wise map. -/
def replaceCommaSpace (s : String) : String :=
  String.mk (s.toList.map (fun c => if c = ',' then ' ' else c))

/-- Helper for `pySplit`: scan the characters, accumulating the current
(reversed) token. -/
def pySplitAux : List Char → List Char → List String
  | [], acc => if acc.isEmpty then [] else [String.mk acc.reverse]
  | c :: cs, acc =>
    if c.isWhitespace then
      if acc.isEmpty then pySplitAux cs []
      else String.mk acc.reverse :: pySplitAux cs []
    else pySplitAux cs (c :: acc)

/-- Python's `str.split()` (no separator): split on whitespace runs, dropping
empty pieces. -/
def pySplit (s : String) : List String :=
  pySplitAux s.toList []

/-- A regex word character (`\w`) for the `\b` boundaries of
`re.findall(r'\b(19\d{2}|20\d{2})\b', ...)`: alphanumeric or underscore. -/
def isWordChar (c : Char) : Bool :=
  c.isAlphanum || c = '_'

/-- If the character list starts with a match of `(19\d{2}|20\d{2})\b`
(four digits beginning `19` or `20`, followed by a non-word character or the
end of the string), return the year's numeric value. -/
def matchYearPrefix : List Char → Option Nat
  | c1 :: c2 :: c3 :: c4 :: rest =>
    if ((c1 == '1' && c2 == '9') || (c1 == '2' && c2 == '0')) &&
        (c3.isDigit && c4.isDigit) &&
        (match rest with | [] => true | r :: _ => ! isWordChar r) then
      some (1000 * (c1.toNat - 48) + 100 * (c2.toNat - 48) +
            10 * (c3.toNat - 48) + (c4.toNat - 48))
    else none
  | _ => none

/-- Left-to-right scan for the first `\b(19\d{2}|20\d{2})\b` match; `prev` is
the character before the current position (`none` at the start of the string),
used for the leading word boundary. -/
def findFirstYear (prev : Option Char) : List Char → Option Nat
  | [] => none
  | c :: cs =>
    let boundaryBefore := match prev with
      | none => true
      | some p => ¬ isWordChar p
    match (if boundaryBefore then matchYearPrefix (c :: cs) else none) with
    | some y => some y
    | none => findFirstYear (some c) cs

/-- `re.findall(r'\b(19\d{2}|20\d{2})\b', year_str)` followed by
`int(years[0])`: the first 4-digit year (19xx/20xx) in the string, if any. -/
def extractYear (s : String) : Option Nat :=
  findFirstYear none s.toList

/-- `create_tags`: title block.  `tags.extend([str(row['title'])] * 3)`. -/
def titleTags (r : Row) : List String :=
  match r.title with
  | some t => [t, t, t]
  | none => []

/-- `create_tags`: genre block.  Commas are replaced by spaces, the result is
whitespace-split, and the genre list is repeated twice (`genres * 2`). -/
def genreTags (r : Row) : List String :=
  match r.genre with
  | some g => pySplit (replaceCommaSpace g) ++ pySplit (replaceCommaSpace g)
  | none => []

/-- `create_tags`: type block (appended once). -/
def typeTags (r : Row) : List String :=
  match r.type_ with
  | some t => [t]
  | none => []

/-- `create_tags`: source block (appended once). -/
def sourceTags (r : Row) : List String :=
  match r.source with
  | some s => [s]
  | none => []

/-- `create_tags`: studio block — commas replaced by spaces, appended as a
single list element. -/
def studioTags (r : Row) : List String :=
  match r.studio with
  | some s => [replaceCommaSpace s]
  | none => []

/-- `create_tags`: score bucket.  `highly_rated` (≥ 8.0), `well_rated`
(≥ 7.0), `decent_rated` (≥ 6.0), nothing below; a missing or unparseable
score contributes nothing (the exception is swallowed). -/
def scoreTags (r : Row) : List String :=
  match r.score with
  | some q =>
    if 8 ≤ q then ["highly_rated"]
    else if 7 ≤ q then ["well_rated"]
    else if 6 ≤ q then ["decent_rated"]
    else []
  | none => []

/-- `create_tags`: episode-count bucket.  `movie_format` (== 1),
`short_series` (≤ 13), `standard_series` (≤ 26), `long_series` (otherwise);
a missing or unparseable count contributes nothing. -/
def episodeTags (r : Row) : List String :=
  match r.episodes with
  | some e =>
    if e = 1 then ["movie_format"]
    else if e ≤ 13 then ["short_series"]
    else if e ≤ 26 then ["standard_series"]
    else ["long_series"]
  | none => []

/-- `create_tags`: era bucket from the first 4-digit year of `aired`:
`recent_anime` (≥ 2020), `modern_era` (≥ 2010), `early_2000s` (≥ 2000),
`classic_anime` (otherwise); no year found contributes nothing. -/
def eraTags (r : Row) : List String :=
  match r.aired with
  | some s =>
    match extractYear s with
    | some y =>
      if 2020 ≤ y then ["recent_anime"]
      else if 2010 ≤ y then ["modern_era"]
      else if 2000 ≤ y then ["early_2000s"]
      else ["classic_anime"]
    | none => []
  | none => []

/-- The `tags` list built by `create_tags(row)`, in the order the Python code
appends its blocks. -/
def create_tags_tokens (r : Row) : List String :=
  titleTags r ++ genreTags r ++ typeTags r ++ sourceTags r ++ studioTags r ++
    scoreTags r ++ episodeTags r ++ eraTags r

/-- `create_tags(row)` proper: `' '.join(tags)`. -/
def create_tags (r : Row) : String :=
  String.intercalate " " (create_tags_tokens r)

/-! ## Title Index and `recommend` -/

/-- The (index-label, value) pairs of `pd.Series(df.index, index=labels)`:
label `labels[j]` maps to row index `j`. -/
def seriesPairs (labels : List (Option String)) : List (Option String × Nat) :=
  labels.enum.map (fun p => (p.2, p.1))

/-- `Series.drop_duplicates()` (keep='first'): drop every entry whose VALUE
(the second component) already occurred earlier.  Note this deduplicates by
mapped-to row index, not by index label. -/
def dropDupVals : List (Option String × Nat) → List Nat → List (Option String × Nat)
  | [], _ => []
  | p :: rest, seen =>
    if p.2 ∈ seen then dropDupVals rest seen
    else p :: dropDupVals rest (p.2 :: seen)

/-- `title_to_index = pd.Series(df.index, index=df['title']).drop_duplicates()`. -/
def title_to_index (df : List Row) : List (Option String × Nat) :=
  dropDupVals (seriesPairs (df.map Row.title)) []

/-- `title_to_index_lower =
pd.Series(df.index, index=df['title'].str.lower()).drop_duplicates()`
(`.str.lower()` maps NaN to NaN). -/
def title_to_index_lower (df : List Row) : List (Option String × Nat) :=
  dropDupVals (seriesPairs (df.map (fun r => r.title.map pyLower))) []

/-- `t in series`: pandas `in` tests membership of `t` among the index
labels. -/
def memLabel (m : List (Option String × Nat)) (t : String) : Bool :=
  m.any (fun p => p.1 == some t)

/-- `series[t]`: all values whose index label equals `t`, in order.  pandas
returns a scalar when there is exactly one and a Series of them otherwise. -/
def lookupLabel (m : List (Option String × Nat)) (t : String) : List Nat :=
  (m.filter (fun p => p.1 == some t)).map Prod.snd

/-- The Title Resolver inside `recommend`: try an exact match against
`title_to_index`, then the lowercased input against `title_to_index_lower`;
the result is the list of row indices the pandas lookup would yield
(`[]` = `index is None`). -/
def resolve (df : List Row) (title : String) : List Nat :=
  if memLabel (title_to_index df) title then
    lookupLabel (title_to_index df) title
  else if memLabel (title_to_index_lower df) (pyLower title) then
    lookupLabel (title_to_index_lower df) (pyLower title)
  else []

/-- Python `round` ties-to-even, applied to an exact rational. -/
def roundHalfEven (q : ℚ) : ℤ :=
  let f := ⌊q⌋
  let r := q - f
  if r < 1 / 2 then f
  else if 1 / 2 < r then f + 1
  else if f % 2 = 0 then f else f + 1

/-- `round(float(score), 4)`. -/
def pyRound4 (q : ℚ) : ℚ :=
  (roundHalfEven (q * 10000) : ℚ) / 10000

/-- One recommendation dictionary.  `title`/`genre`/`type`/`source` are always
present (possibly NaN = `none`); `score`/`episodes`/`aired`/`studio` are added
only when present and non-null, which `Option` models as well. -/
structure Rec where
  title : Option String
  genre : Option String
  type_ : Option String
  source : Option String
  similarity : ℚ
  score : Option ℚ
  episodes : Option Int
  aired : Option String
  studio : Option String
deriving DecidableEq

/-- Build the recommendation dictionary for row `idx` with raw similarity
`score` (metadata is row-aligned with `df`). -/
def mkRec (df : List Row) (idx : Nat) (score : ℚ) : Rec :=
  let r := df.getD idx default
  { title := r.title, genre := r.genre, type_ := r.type_, source := r.source,
    similarity := pyRound4 score,
    score := r.score, episodes := r.episodes, aired := r.aired,
    studio := r.studio }

/-- `distances = list(enumerate(sim[index]))`: the row of the similarity
matrix for row `i`, paired with candidate row indices.  `n` is the number of
dataset rows (the matrix is `n × n`). -/
def distances (n : Nat) (sim : Nat → Nat → ℚ) (i : Nat) : List (Nat × ℚ) :=
  (List.range n).map (fun j => (j, sim i j))

/-- `distances.sort(reverse=True, key=lambda x: x[1])`: stable sort,
descending by similarity score.  Python's Timsort is stable; so is
`List.mergeSort` with a `≥`-on-score comparator. -/
def sortedDistances (df : List Row) (sim : Nat → Nat → ℚ) (i : Nat) :
    List (Nat × ℚ) :=
  (distances df.length sim i).mergeSort (fun a b => decide (b.2 ≤ a.2))

/-- The main loop of `recommend`: walk the sorted candidates, skip the
resolved row itself, skip rows whose title is in `seen` (the code's
`seen_titles` set — pandas stores a single shared NaN object for missing
titles, and Python set membership short-circuits on object identity, so
`none` participates in deduplication exactly like a value), emit a
recommendation dictionary, and stop once `remaining` (initially `top_n`)
recommendations have been emitted. -/
def recLoop (df : List Row) (index : Nat) :
    Nat → List (Nat × ℚ) → List (Option String) → List Rec
  | _, [], _ => []
  | remaining, p :: rest, seen =>
    if p.1 = index then recLoop df index remaining rest seen
    else if (df.getD p.1 default).title ∈ seen then
      recLoop df index remaining rest seen
    else if remaining = 1 then [mkRec df p.1 p.2]
    else mkRec df p.1 p.2 ::
      recLoop df index (remaining - 1) rest ((df.getD p.1 default).title :: seen)

/-- The `(row index, raw score)` pairs that `recLoop` emits, in order — the
same traversal without building the dictionaries. -/
def pickRows (df : List Row) (index : Nat) :
    Nat → List (Nat × ℚ) → List (Option String) → List (Nat × ℚ)
  | _, [], _ => []
  | remaining, p :: rest, seen =>
    if p.1 = index then pickRows df index remaining rest seen
    else if (df.getD p.1 default).title ∈ seen then
      pickRows df index remaining rest seen
    else if remaining = 1 then [p]
    else p ::
      pickRows df index (remaining - 1) rest ((df.getD p.1 default).title :: seen)

/-- The number of distinct "title units" the loop can still emit from the
candidate list, given the titles already seen (threading `seen` exactly as
the loop does). -/
def unitCount (df : List Row) (index : Nat) :
    List (Nat × ℚ) → List (Option String) → Nat
  | [], _ => 0
  | p :: rest, seen =>
    if p.1 = index then unitCount df index rest seen
    else if (df.getD p.1 default).title ∈ seen then unitCount df index rest seen
    else 1 + unitCount df index rest ((df.getD p.1 default).title :: seen)

/-- The number of distinct title values among the rows other than `i`
(missing titles count as the single shared NaN value). -/
def distinctOtherTitles (df : List Row) (i : Nat) : Nat :=
  ((((List.range df.length).filter (fun j => j ≠ i)).map
      (fun j => (df.getD j default).title)).dedup).length

/-- The error `recommend` hits when the title lookup returns several rows:
`sim[index]` is then a 2-D slice and `distances.sort` compares multi-element
numpy arrays, raising `ValueError` (a duplicated title forces ≥ 2 dataset
rows, hence ≥ 2 columns per compared array, hence an ambiguous truth value). -/
def ambiguousSortError : String :=
  "ValueError: The truth value of an array with more than one element is ambiguous."

/-- `recommend(title, top_n)`. -/
def recommend (df : List Row) (sim : Nat → Nat → ℚ) (title : String)
    (top_n : Nat) : Except String (List Rec) :=
  match resolve df title with
  | [] => .ok []
  | [i] => .ok (recLoop df i top_n (sortedDistances df sim i) [])
  | _ :: _ :: _ => .error ambiguousSortError

/-- Python `needle in hay` on strings: contiguous-substring test. -/
def pyInStr (needle hay : String) : Bool :=
  (List.range (hay.toList.length + 1)).any
    (fun k => (hay.toList.drop k).take needle.toList.length = needle.toList)

/-- The loop of `search_titles`: `cnt` is `len(matches)` so far; Python
appends a match and then breaks once `len(matches) >= limit`. -/
def searchAux (ql : String) (limit : Nat) :
    List String → Nat → List String
  | [], _ => []
  | t :: rest, cnt =>
    if pyInStr ql (pyLower t) then
      if limit ≤ cnt + 1 then [t]
      else t :: searchAux ql limit rest (cnt + 1)
    else searchAux ql limit rest cnt

/-- `search_titles(query, limit)`: scan the non-null titles in dataset order,
keep those whose lowercase contains the lowercased query. -/
def search_titles (df : List Row) (query : String) (limit : Nat) :
    List String :=
  searchAux (pyLower query) limit (df.filterMap Row.title) 0

/-! ## Cosine similarity (`sim = cosine_similarity(vectorized)`)

`sklearn.metrics.pairwise.cosine_similarity(X)` L2-normalizes each row of `X`
(rows with zero norm are divided by 1 instead, sklearn's `normalize`
convention) and returns the matrix of pairwise dot products of the normalized
rows.  The feature matrix entries are TF-IDF weights, hence non-negative. -/

/-- Dot product of two feature vectors. -/
noncomputable def dotR {n : ℕ} (v w : Fin n → ℝ) : ℝ := ∑ k, v k * w k

/-- The divisor sklearn's `normalize` uses for a row: its L2 norm, except a
zero norm is replaced by 1. -/
noncomputable def rowNormFactor {n : ℕ} (v : Fin n → ℝ) : ℝ :=
  if Real.sqrt (dotR v v) = 0 then 1 else Real.sqrt (dotR v v)

/-- `cosine_similarity(X)[i, j]`. -/
noncomputable def cosine_similarity {m n : ℕ} (X : Fin m → Fin n → ℝ)
    (i j : Fin m) : ℝ :=
  dotR (X i) (X j) / (rowNormFactor (X i) * rowNormFactor (X j))

/-! ## Theorems -/

/-- **C5** (confirmed).  For every record with a parseable episode count the
normalizer appends exactly one episode-bucket token — `movie_format` when the
count is 1, `short_series` when it is between 2 and 13, `standard_series`
between 14 and 26, `long_series` above 26 — and a record whose episode value
is missing or unparseable gets no episode token (the parse error is
swallowed, so the normalizer still returns normally). -/
theorem C5_episode_bucket (r : Row) :
    (∀ e : Int, r.episodes = some e →
      (episodeTags r).length = 1 ∧
      (e = 1 → episodeTags r = ["movie_format"]) ∧
      (2 ≤ e → e ≤ 13 → episodeTags r = ["short_series"]) ∧
      (14 ≤ e → e ≤ 26 → episodeTags r = ["standard_series"]) ∧
      (26 < e → episodeTags r = ["long_series"])) ∧
    (r.episodes = none → episodeTags r = []) := by
  constructor
  · intro e he
    have heq : episodeTags r =
        if e = 1 then ["movie_format"]
        else if e ≤ 13 then ["short_series"]
        else if e ≤ 26 then ["standard_series"]
        else ["long_series"] := by
      unfold episodeTags
      rw [he]
    rw [heq]
    split_ifs with h1 h2 h3 <;>
      exact ⟨rfl, by intros; first | rfl | omega, by intros; first | rfl | omega,
        by intros; first | rfl | omega, by intros; first | rfl | omega⟩
  · intro he
    unfold episodeTags
    rw [he]

/-- Sample row for the C5 witness: 24 parseable episodes. -/
def rowC5 : Row :=
  { title := some "Steins;Gate", genre := some "Sci-Fi, Thriller",
    type_ := some "TV", source := some "Visual novel", studio := none,
    score := some (9 : ℚ), episodes := some 24, aired := some "2011" }

/-- Witness for C5 at a concrete record with 24 episodes. -/
theorem C5_episode_bucket_witness :
    (episodeTags rowC5).length = 1 ∧ episodeTags rowC5 = ["standard_series"] :=
  ⟨((C5_episode_bucket rowC5).1 24 rfl).1,
   ((C5_episode_bucket rowC5).1 24 rfl).2.2.2.1 (by decide) (by decide)⟩

/-- The record refuting C6 as stated: its title is the single token
`"Action"`, which the normalizer repeats three times, so the tag list holds
five occurrences of `Action`, not exactly two. -/
def rowC6 : Row :=
  { title := some "Action", genre := some "Action, Adventure",
    type_ := none, source := none, studio := none,
    score := some (mkRat 17 2), episodes := some 24, aired := some "2015" }

/-- **C6** (counterexample).  A record with genre `"Action, Adventure"`,
score 8.5, episodes 24 and aired `"2015"` — but title `"Action"` — produces
five occurrences of the token `Action` in its tag list, so the tag string
does not contain exactly two occurrences. -/
theorem C6_counterexample :
    rowC6.genre = some "Action, Adventure" ∧ rowC6.score = some (17 / 2) ∧
    rowC6.episodes = some 24 ∧ rowC6.aired = some "2015" ∧
    (create_tags_tokens rowC6).count "Action" = 5 ∧
    ¬ (create_tags_tokens rowC6).count "Action" = 2 := by
  refine ⟨rfl, ?_, rfl, rfl, ?_, ?_⟩
  · show some (mkRat 17 2) = some (17 / 2 : ℚ)
    norm_num [Rat.mkRat_eq_div]
  · decide
  · decide

/-- **C6** (amended).  For every record with genre `"Action, Adventure"`,
score 8.5, episodes 24 and aired `"2015"`, the tag list contains at least two
occurrences each of `Action` and `Adventure` (exactly two when no other field
contributes those tokens), together with `highly_rated`, `standard_series`
and `modern_era`. -/
theorem C6_amended (r : Row) (hg : r.genre = some "Action, Adventure")
    (hs : r.score = some (17 / 2)) (he : r.episodes = some 24)
    (ha : r.aired = some "2015") :
    2 ≤ (create_tags_tokens r).count "Action" ∧
    2 ≤ (create_tags_tokens r).count "Adventure" ∧
    "highly_rated" ∈ create_tags_tokens r ∧
    "standard_series" ∈ create_tags_tokens r ∧
    "modern_era" ∈ create_tags_tokens r := by
  have hgt : genreTags r = ["Action", "Adventure", "Action", "Adventure"] := by
    unfold genreTags; rw [hg]; decide
  have hst : scoreTags r = ["highly_rated"] := by
    unfold scoreTags
    rw [hs]
    show (if (8 : ℚ) ≤ 17 / 2 then ["highly_rated"]
      else if (7 : ℚ) ≤ 17 / 2 then ["well_rated"]
      else if (6 : ℚ) ≤ 17 / 2 then ["decent_rated"] else []) = ["highly_rated"]
    rw [if_pos (by norm_num : (8 : ℚ) ≤ 17 / 2)]
  have het : episodeTags r = ["standard_series"] := by
    unfold episodeTags; rw [he]; decide
  have hat : eraTags r = ["modern_era"] := by
    unfold eraTags; rw [ha]; decide
  unfold create_tags_tokens
  rw [hgt, hst, het, hat]
  simp only [List.count_append, List.mem_append]
  refine ⟨?_, ?_, ?_, ?_, ?_⟩
  · have h2 : (["Action", "Adventure", "Action", "Adventure"]).count "Action" = 2 := by decide
    omega
  · have h2 : (["Action", "Adventure", "Action", "Adventure"]).count "Adventure" = 2 := by decide
    omega
  · simp
  · simp
  · simp

/-- Witness for C6's amended statement at a concrete record. -/
theorem C6_amended_witness :
    2 ≤ (create_tags_tokens rowC6).count "Action" ∧
    2 ≤ (create_tags_tokens rowC6).count "Adventure" ∧
    "highly_rated" ∈ create_tags_tokens rowC6 ∧
    "standard_series" ∈ create_tags_tokens rowC6 ∧
    "modern_era" ∈ create_tags_tokens rowC6 :=
  C6_amended rowC6 rfl (by norm_num [rowC6, Rat.mkRat_eq_div]) rfl rfl

/-- `drop_duplicates` is the identity when the values are already distinct
and disjoint from `seen`. -/
theorem dropDupVals_eq_self (l : List (Option String × Nat)) (seen : List Nat)
    (h1 : (l.map Prod.snd).Nodup) (h2 : ∀ p ∈ l, p.2 ∉ seen) :
    dropDupVals l seen = l := by
  induction l generalizing seen with
  | nil => rfl
  | cons p rest ih =>
    have hp : p.2 ∉ seen := h2 p (List.mem_cons_self p rest)
    rw [dropDupVals, if_neg hp]
    congr 1
    refine ih (p.2 :: seen) ((List.nodup_cons.mp h1).2) ?_
    intro q hq
    simp only [List.mem_cons, not_or]
    refine ⟨?_, h2 q (List.mem_cons_of_mem p hq)⟩
    intro hqp
    exact (List.nodup_cons.mp h1).1 (hqp ▸ List.mem_map_of_mem Prod.snd hq)

/-- The values of `pd.Series(df.index, index=labels)` are the row indices. -/
theorem seriesPairs_map_snd (labels : List (Option String)) :
    (seriesPairs labels).map Prod.snd = List.range labels.length := by
  simp [seriesPairs, List.map_map, Function.comp_def, List.enum_map_fst]

/-- Because the series' values are the (all-distinct) row indices,
`drop_duplicates` removes nothing from `title_to_index`. -/
theorem title_to_index_eq (df : List Row) :
    title_to_index df = seriesPairs (df.map Row.title) := by
  unfold title_to_index
  refine dropDupVals_eq_self _ _ ?_ (by simp)
  rw [seriesPairs_map_snd]
  exact List.nodup_range _

/-- Likewise for the lowercased map. -/
theorem title_to_index_lower_eq (df : List Row) :
    title_to_index_lower df = seriesPairs (df.map (fun r => r.title.map pyLower)) := by
  unfold title_to_index_lower
  refine dropDupVals_eq_self _ _ ?_ (by simp)
  rw [seriesPairs_map_snd]
  exact List.nodup_range _

/-- Looking a label up in an undeduplicated series yields the positions of
every occurrence of that label. -/
theorem lookupLabel_seriesPairs (labels : List (Option String)) (t : String) :
    lookupLabel (seriesPairs labels) t =
      (labels.enum.filter (fun p => p.2 == some t)).map Prod.fst := by
  unfold lookupLabel seriesPairs
  rw [List.filter_map, List.map_map]
  rfl

/-- All row indices whose exact title is `t`. -/
def exactMatchRows (df : List Row) (t : String) : List Nat :=
  (df.enum.filter (fun p => p.2.title == some t)).map Prod.fst

/-- All row indices whose lowercased title is `t`. -/
def lowerMatchRows (df : List Row) (t : String) : List Nat :=
  (df.enum.filter (fun p => p.2.title.map pyLower == some t)).map Prod.fst

/-- Row dataset with two rows that share the exact title `"A"`, refuting the
claimed per-title deduplication of the Title Index. -/
def rowOnlyTitle (t : String) : Row :=
  { title := some t, genre := none, type_ := none, source := none,
    studio := none, score := none, episodes := none, aired := none }

def dfC1 : List Row := [rowOnlyTitle "A", rowOnlyTitle "A"]

/-- **C1** (counterexample).  In a dataset whose two rows both have title
`"A"`, both title maps keep BOTH row-index entries for `"A"`
(`Series.drop_duplicates` deduplicates by value — the distinct row indices —
not by title), so the lookup yields two row indices, not exactly one. -/
theorem C1_counterexample :
    (lookupLabel (title_to_index dfC1) "A").length = 2 ∧
    ¬ (lookupLabel (title_to_index dfC1) "A").length = 1 ∧
    (lookupLabel (title_to_index_lower dfC1) "a").length = 2 := by decide

/-- Looking up `t` in the exact-title map yields every row whose title is
`t`, in dataset order. -/
theorem lookup_exact_eq (df : List Row) (t : String) :
    lookupLabel (title_to_index df) t = exactMatchRows df t := by
  rw [title_to_index_eq, lookupLabel_seriesPairs]
  unfold exactMatchRows
  rw [List.enum_map, List.filter_map, List.map_map]
  rfl

/-- Looking up `t` in the lowercased-title map yields every row whose
lowercased title is `t`, in dataset order. -/
theorem lookup_lower_eq (df : List Row) (t : String) :
    lookupLabel (title_to_index_lower df) t = lowerMatchRows df t := by
  rw [title_to_index_lower_eq, lookupLabel_seriesPairs]
  unfold lowerMatchRows
  rw [List.enum_map, List.filter_map, List.map_map]
  rfl

/-- **C1** (amended).  The Title Index is NOT deduplicated by title:
`drop_duplicates` drops entries with duplicate values, and the values (the
row indices) never repeat, so for every title each map retains one entry per
dataset occurrence, and looking up a title that occurs in several rows
yields all of its row indices. -/
theorem C1_amended (df : List Row) (t : String) :
    lookupLabel (title_to_index df) t = exactMatchRows df t ∧
    lookupLabel (title_to_index_lower df) t = lowerMatchRows df t :=
  ⟨lookup_exact_eq df t, lookup_lower_eq df t⟩

/-- Similarity function used by concrete witnesses (its values are irrelevant
to the properties being witnessed). -/
def simZero : Nat → Nat → ℚ := fun _ _ => 0

/-- **C2** (confirmed).  `recommend` first tries the exact-title map, then the
lowercased input against the lowercased-title map, and when both lookups miss
it returns the empty list — an `ok []`, not an error — for every input
string. -/
theorem C2_lookup_order (df : List Row) (sim : Nat → Nat → ℚ) (title : String)
    (top_n : Nat) :
    (memLabel (title_to_index df) title = true →
      resolve df title = lookupLabel (title_to_index df) title) ∧
    (memLabel (title_to_index df) title = false →
      memLabel (title_to_index_lower df) (pyLower title) = true →
      resolve df title = lookupLabel (title_to_index_lower df) (pyLower title)) ∧
    (memLabel (title_to_index df) title = false →
      memLabel (title_to_index_lower df) (pyLower title) = false →
      recommend df sim title top_n = Except.ok []) := by
  refine ⟨fun h1 => ?_, fun h1 h2 => ?_, fun h1 h2 => ?_⟩
  · unfold resolve
    rw [if_pos h1]
  · unfold resolve
    rw [if_neg (by simp [h1]), if_pos h2]
  · have hres : resolve df title = [] := by
      unfold resolve
      rw [if_neg (by simp [h1]), if_neg (by simp [h2])]
    unfold recommend
    rw [hres]

def dfC2 : List Row := [rowOnlyTitle "Naruto", rowOnlyTitle "One Piece"]

/-- Witness for C2: an unknown title returns the empty list. -/
theorem C2_lookup_order_witness :
    recommend dfC2 simZero "Nonexistent Anime XYZ" 5 = Except.ok [] :=
  (C2_lookup_order dfC2 simZero "Nonexistent Anime XYZ" 5).2.2
    (by decide) (by decide)

/-- The number of exact-title matches equals the number of rows carrying that
title. -/
theorem exactMatchRows_length (df : List Row) (t : String) :
    (exactMatchRows df t).length =
      (df.filter (fun r => r.title == some t)).length := by
  unfold exactMatchRows
  rw [List.length_map, ← List.countP_eq_length_filter,
    ← List.countP_eq_length_filter]
  conv_rhs => rw [← List.enum_map_snd df]
  rw [List.countP_map]
  rfl

/-- Membership of a label in a series is equivalent to a non-empty lookup. -/
theorem memLabel_iff_lookup_ne_nil (m : List (Option String × Nat))
    (t : String) : memLabel m t = true ↔ lookupLabel m t ≠ [] := by
  unfold memLabel lookupLabel
  simp only [List.any_eq_true, ne_eq, List.map_eq_nil_iff,
    List.filter_eq_nil_iff]
  push_neg
  rfl

/-- **C10** (confirmed).  If a title occurs in more than one dataset row, the
exact-title lookup yields several row indices; `sim[index]` is then a 2-D
slice, and sorting `list(enumerate(...))` compares multi-element numpy
arrays, which raises `ValueError` — `recommend` raises instead of returning
any list.  (Two rows sharing a title force at least two dataset rows, so each
compared array has at least two entries and the comparison is ambiguous.) -/
theorem C10_duplicate_title_raises (df : List Row) (T : String)
    (sim : Nat → Nat → ℚ) (top_n : Nat)
    (h : 2 ≤ (df.filter (fun r => r.title == some T)).length) :
    recommend df sim T top_n = Except.error ambiguousSortError := by
  have hlen : 2 ≤ (lookupLabel (title_to_index df) T).length := by
    rw [lookup_exact_eq, exactMatchRows_length]
    exact h
  have hmem : memLabel (title_to_index df) T = true := by
    rw [memLabel_iff_lookup_ne_nil]
    intro hnil
    rw [hnil] at hlen
    simp at hlen
  have hres : resolve df T = lookupLabel (title_to_index df) T := by
    unfold resolve
    rw [if_pos hmem]
  unfold recommend
  rw [hres]
  rcases hl : lookupLabel (title_to_index df) T with _ | ⟨a, _ | ⟨b, rest⟩⟩
  · rw [hl] at hlen; simp at hlen
  · rw [hl] at hlen; simp at hlen
  · rfl

def dfC10 : List Row := [rowOnlyTitle "A", rowOnlyTitle "A", rowOnlyTitle "B"]

/-- Witness for C10: a dataset where `"A"` titles two rows. -/
theorem C10_duplicate_title_raises_witness :
    recommend dfC10 simZero "A" 5 = Except.error ambiguousSortError :=
  C10_duplicate_title_raises dfC10 "A" simZero 5 (by decide)

/-- The `search_titles` loop is `take (limit - cnt)` of the filtered list. -/
theorem searchAux_eq_take_filter (ql : String) (limit : Nat) (l : List String)
    (cnt : Nat) (h : cnt < limit) :
    searchAux ql limit l cnt =
      (l.filter (fun t => pyInStr ql (pyLower t))).take (limit - cnt) := by
  induction l generalizing cnt with
  | nil => simp [searchAux]
  | cons t rest ih =>
    rw [searchAux]
    by_cases hp : pyInStr ql (pyLower t) = true
    · rw [if_pos hp, List.filter_cons, if_pos hp]
      by_cases hstop : limit ≤ cnt + 1
      · rw [if_pos hstop]
        have h1 : limit - cnt = 1 := by omega
        rw [h1]
        rfl
      · rw [if_neg hstop, ih (cnt + 1) (by omega)]
        have h1 : limit - cnt = (limit - (cnt + 1)) + 1 := by omega
        rw [h1]
        rfl
    · rw [if_neg hp, List.filter_cons, if_neg hp, ih cnt h]

/-- **C9** (confirmed).  For every query and positive limit, `search_titles`
returns the first `limit` non-null titles, in dataset order, whose lowercased
text contains the lowercased query as a substring: it equals
`take limit` of the filtered title list (so it has at most `limit` entries,
every returned title matches, and no matching title before the cutoff is
skipped). -/
theorem C9_search_titles (df : List Row) (query : String) (limit : Nat)
    (h : 1 ≤ limit) :
    search_titles df query limit =
      ((df.filterMap Row.title).filter
        (fun t => pyInStr (pyLower query) (pyLower t))).take limit ∧
    (search_titles df query limit).length ≤ limit ∧
    ∀ t ∈ search_titles df query limit,
      t ∈ df.filterMap Row.title ∧
        pyInStr (pyLower query) (pyLower t) = true := by
  have he : search_titles df query limit =
      ((df.filterMap Row.title).filter
        (fun t => pyInStr (pyLower query) (pyLower t))).take limit := by
    unfold search_titles
    rw [searchAux_eq_take_filter _ _ _ 0 (by omega), Nat.sub_zero]
  refine ⟨he, ?_, ?_⟩
  · rw [he]
    exact List.length_take_le _ _
  · intro t ht
    rw [he] at ht
    have ht' := List.mem_filter.mp (List.mem_of_mem_take ht)
    exact ⟨ht'.1, ht'.2⟩

def dfC9 : List Row :=
  [rowOnlyTitle "One Piece", rowOnlyTitle "Naruto",
   { rowOnlyTitle "OnePunch Man" with studio := none }]

/-- Witness for C9 at a concrete dataset and `limit = 3`. -/
theorem C9_search_titles_witness :
    search_titles dfC9 "one" 3 =
      ((dfC9.filterMap Row.title).filter
        (fun t => pyInStr (pyLower "one") (pyLower t))).take 3 ∧
    (search_titles dfC9 "one" 3).length ≤ 3 ∧
    ∀ t ∈ search_titles dfC9 "one" 3,
      t ∈ dfC9.filterMap Row.title ∧
        pyInStr (pyLower "one") (pyLower t) = true :=
  C9_search_titles dfC9 "one" 3 (by decide)

/-- **C7** (confirmed).  The candidate list `recommend` iterates — the
descending stable sort of `list(enumerate(sim[index]))` — is ordered by
non-increasing similarity score, and candidates with equal scores keep their
original (dataset row) order: for every score value, filtering the sorted
list to that score gives exactly the corresponding filtering of the original
enumeration. -/
theorem C7_sort_descending_stable (df : List Row) (sim : Nat → Nat → ℚ)
    (i : Nat) :
    (sortedDistances df sim i).Pairwise (fun a b => b.2 ≤ a.2) ∧
    ∀ v : ℚ, (sortedDistances df sim i).filter (fun p => p.2 == v) =
      (distances df.length sim i).filter (fun p => p.2 == v) := by
  have htrans : ∀ a b c : Nat × ℚ,
      (fun a b : Nat × ℚ => decide (b.2 ≤ a.2)) a b = true →
      (fun a b : Nat × ℚ => decide (b.2 ≤ a.2)) b c = true →
      (fun a b : Nat × ℚ => decide (b.2 ≤ a.2)) a c = true := by
    intro a b c hab hbc
    simp only [decide_eq_true_eq] at *
    exact le_trans hbc hab
  have htotal : ∀ a b : Nat × ℚ,
      ((fun a b : Nat × ℚ => decide (b.2 ≤ a.2)) a b ||
       (fun a b : Nat × ℚ => decide (b.2 ≤ a.2)) b a) = true := by
    intro a b
    simp only [Bool.or_eq_true, decide_eq_true_eq]
    exact le_total b.2 a.2
  constructor
  · have hp := List.sorted_mergeSort htrans htotal (distances df.length sim i)
    exact hp.imp (fun h => by simpa using h)
  · intro v
    have hpwA : ((distances df.length sim i).filter
        (fun p => p.2 == v)).Pairwise
        (fun a b : Nat × ℚ => (fun a b : Nat × ℚ => decide (b.2 ≤ a.2)) a b = true) := by
      refine List.pairwise_of_forall_mem_list ?_
      intro a ha b hb
      have ha2 : a.2 = v := by simpa using (List.mem_filter.mp ha).2
      have hb2 : b.2 = v := by simpa using (List.mem_filter.mp hb).2
      simp [ha2, hb2]
    have hsub : ((distances df.length sim i).filter
        (fun p => p.2 == v)).Sublist (sortedDistances df sim i) :=
      List.sublist_mergeSort htrans htotal hpwA (List.filter_sublist _)
    have hAfix : ((distances df.length sim i).filter
        (fun p => p.2 == v)).filter (fun p => p.2 == v) =
        (distances df.length sim i).filter (fun p => p.2 == v) :=
      List.filter_eq_self.mpr (fun a ha => (List.mem_filter.mp ha).2)
    have hsub2 : ((distances df.length sim i).filter
        (fun p => p.2 == v)).Sublist
        ((sortedDistances df sim i).filter (fun p => p.2 == v)) := by
      rw [← hAfix]
      exact hsub.filter _
    have hperm : ((sortedDistances df sim i).filter (fun p => p.2 == v)).Perm
        ((distances df.length sim i).filter (fun p => p.2 == v)) :=
      (List.mergeSort_perm _ _).filter _
    exact (hsub2.eq_of_length hperm.length_eq.symm).symm

/-- Building the recommendation dictionaries commutes with collecting the
emitted rows. -/
theorem recLoop_eq_pickRows (df : List Row) (index : Nat)
    (L : List (Nat × ℚ)) :
    ∀ (remaining : Nat) (seen : List (Option String)),
    recLoop df index remaining L seen =
      (pickRows df index remaining L seen).map (fun p => mkRec df p.1 p.2) := by
  induction L with
  | nil => intro remaining seen; rfl
  | cons p rest ih =>
    intro remaining seen
    simp only [recLoop, pickRows]
    split_ifs with h1 h2 h3
    · exact ih remaining seen
    · exact ih remaining seen
    · rfl
    · rw [List.map_cons, ih]

/-- The loop never emits the resolved row itself. -/
theorem pickRows_not_self (df : List Row) (index : Nat)
    (L : List (Nat × ℚ)) :
    ∀ (remaining : Nat) (seen : List (Option String)),
    index ∉ (pickRows df index remaining L seen).map Prod.fst := by
  induction L with
  | nil => intro remaining seen; simp [pickRows]
  | cons p rest ih =>
    intro remaining seen
    simp only [pickRows]
    split_ifs with h1 h2 h3
    · exact ih remaining seen
    · exact ih remaining seen
    · simp only [List.map_cons, List.map_nil, List.mem_singleton]
      exact fun hh => h1 hh.symm
    · simp only [List.map_cons, List.mem_cons, not_or]
      exact ⟨fun hh => h1 hh.symm, ih (remaining - 1) _⟩

/-- The titles of the emitted rows are pairwise distinct and disjoint from
the already-seen titles. -/
theorem pickRows_titles_nodup (df : List Row) (index : Nat)
    (L : List (Nat × ℚ)) :
    ∀ (remaining : Nat) (seen : List (Option String)),
    ((pickRows df index remaining L seen).map
        (fun p => (df.getD p.1 default).title)).Nodup ∧
    ∀ t ∈ (pickRows df index remaining L seen).map
        (fun p => (df.getD p.1 default).title), t ∉ seen := by
  induction L with
  | nil => intro remaining seen; simp [pickRows]
  | cons p rest ih =>
    intro remaining seen
    simp only [pickRows]
    split_ifs with h1 h2 h3
    · exact ih remaining seen
    · exact ih remaining seen
    · refine ⟨by simp, ?_⟩
      intro t ht
      simp only [List.map_cons, List.map_nil, List.mem_singleton] at ht
      rw [ht]
      exact h2
    · have ihh := ih (remaining - 1) ((df.getD p.1 default).title :: seen)
      constructor
      · simp only [List.map_cons, List.nodup_cons]
        refine ⟨?_, ihh.1⟩
        intro hmem
        exact (ihh.2 _ hmem) (List.mem_cons_self _ _)
      · intro t ht
        simp only [List.map_cons, List.mem_cons] at ht
        rcases ht with h | h
        · rw [h]
          exact h2
        · intro hseen
          exact (ihh.2 t h) (List.mem_cons_of_mem _ hseen)

/-- The loop emits `min remaining #units` rows, where `#units` counts the
candidate rows that are not the resolved row and carry a not-yet-seen title,
threading seen titles. -/
theorem pickRows_length (df : List Row) (index : Nat) (L : List (Nat × ℚ)) :
    ∀ (remaining : Nat), 1 ≤ remaining →
    ∀ (seen : List (Option String)),
    (pickRows df index remaining L seen).length =
      min remaining (unitCount df index L seen) := by
  induction L with
  | nil =>
    intro remaining h1 seen
    simp [pickRows, unitCount]
  | cons p rest ih =>
    intro remaining h1 seen
    simp only [pickRows, unitCount]
    split_ifs with h2 h3 h4
    · exact ih remaining h1 seen
    · exact ih remaining h1 seen
    · rw [h4]
      simp only [List.length_singleton]
      omega
    · have h5 : 1 ≤ remaining - 1 := by omega
      rw [List.length_cons, ih (remaining - 1) h5]
      omega

/-- The cardinality of `insert` via `erase`. -/
theorem card_insert_eq_card_erase_add_one {α : Type} [DecidableEq α]
    (s : Finset α) (a : α) : (insert a s).card = (s.erase a).card + 1 := by
  by_cases h : a ∈ s
  · rw [Finset.insert_eq_self.mpr h, ← Finset.card_erase_add_one h]
  · rw [Finset.card_insert_of_not_mem h, Finset.erase_eq_of_not_mem h]

/-- `unitCount` is the number of distinct unseen titles among the candidate
entries other than the resolved row. -/
theorem unitCount_eq_card (df : List Row) (index : Nat)
    (L : List (Nat × ℚ)) :
    ∀ (seen : List (Option String)),
    unitCount df index L seen =
      (((L.filter (fun p => p.1 ≠ index)).map
          (fun p => (df.getD p.1 default).title)).toFinset \
        seen.toFinset).card := by
  induction L with
  | nil => intro seen; simp [unitCount]
  | cons p rest ih =>
    intro seen
    simp only [unitCount]
    split_ifs with h1 h2
    · rw [ih seen, List.filter_cons, if_neg (by simp [h1])]
    · rw [ih seen, List.filter_cons, if_pos (by simp [h1])]
      simp only [List.map_cons, List.toFinset_cons]
      rw [Finset.insert_sdiff_of_mem _ (by simpa using h2)]
    · rw [ih ((df.getD p.1 default).title :: seen),
        List.filter_cons, if_pos (by simp [h1])]
      simp only [List.map_cons, List.toFinset_cons]
      have hnm : (df.getD p.1 default).title ∉ seen.toFinset := by
        simpa using h2
      have hins :
          insert (df.getD p.1 default).title
              ((rest.filter (fun p => p.1 ≠ index)).map
                (fun p => (df.getD p.1 default).title)).toFinset \
            seen.toFinset =
          insert (df.getD p.1 default).title
            (((rest.filter (fun p => p.1 ≠ index)).map
                (fun p => (df.getD p.1 default).title)).toFinset \
              seen.toFinset) := by
        ext a
        simp only [Finset.mem_sdiff, Finset.mem_insert]
        constructor
        · rintro ⟨h | h, hb⟩
          · exact Or.inl h
          · exact Or.inr ⟨h, hb⟩
        · rintro (h | ⟨h, hb⟩)
          · exact ⟨Or.inl h, h ▸ hnm⟩
          · exact ⟨Or.inr h, hb⟩
      rw [hins, card_insert_eq_card_erase_add_one, Finset.sdiff_insert]
      omega

/-- Starting from no seen titles, the unit count over the sorted candidate
list is the number of distinct titles among the other rows (sorting permutes
the candidates, and the count is permutation-invariant). -/
theorem unitCount_sorted_eq (df : List Row) (sim : Nat → Nat → ℚ) (i : Nat) :
    unitCount df i (sortedDistances df sim i) [] = distinctOtherTitles df i := by
  rw [unitCount_eq_card df i _ []]
  have hperm : (sortedDistances df sim i).Perm (distances df.length sim i) :=
    List.mergeSort_perm _ _
  have h3 := (hperm.filter (fun p => p.1 ≠ i)).map
    (fun p => (df.getD p.1 default).title)
  rw [List.toFinset_eq_of_perm _ _ h3, List.toFinset_nil, Finset.sdiff_empty,
    List.card_toFinset]
  unfold distinctOtherTitles distances
  rw [List.filter_map, List.map_map]
  rfl

/-- **C3** (confirmed).  When a title resolves to the unique row `i` and
`top_n` is positive: `recommend` succeeds with the loop's output; the
resolved row is never among the emitted rows; no title value appears on two
emitted records; at most `top_n` records are returned; and the number
returned is exactly `min top_n D` where `D` is the number of distinct title
values among the other rows — so fewer than `top_n` are returned only when
fewer than `top_n` distinct other titles exist. -/
theorem C3_recommend_guarantees (df : List Row) (sim : Nat → Nat → ℚ)
    (title : String) (i top_n : Nat)
    (h1 : resolve df title = [i]) (h2 : 1 ≤ top_n) :
    recommend df sim title top_n =
      Except.ok (recLoop df i top_n (sortedDistances df sim i) []) ∧
    i ∉ (pickRows df i top_n (sortedDistances df sim i) []).map Prod.fst ∧
    ((recLoop df i top_n (sortedDistances df sim i) []).map Rec.title).Nodup ∧
    (recLoop df i top_n (sortedDistances df sim i) []).length ≤ top_n ∧
    (recLoop df i top_n (sortedDistances df sim i) []).length =
      min top_n (distinctOtherTitles df i) := by
  have hmap : (recLoop df i top_n (sortedDistances df sim i) []).map Rec.title =
      (pickRows df i top_n (sortedDistances df sim i) []).map
        (fun p => (df.getD p.1 default).title) := by
    rw [recLoop_eq_pickRows, List.map_map]
    rfl
  have hlen : (recLoop df i top_n (sortedDistances df sim i) []).length =
      (pickRows df i top_n (sortedDistances df sim i) []).length := by
    rw [recLoop_eq_pickRows, List.length_map]
  refine ⟨?_, ?_, ?_, ?_, ?_⟩
  · unfold recommend
    rw [h1]
  · exact pickRows_not_self df i _ top_n []
  · rw [hmap]
    exact (pickRows_titles_nodup df i _ top_n []).1
  · rw [hlen, pickRows_length df i _ top_n h2 []]
    exact Nat.min_le_left _ _
  · rw [hlen, pickRows_length df i _ top_n h2 [], unitCount_sorted_eq]

def dfC3 : List Row := [rowOnlyTitle "A", rowOnlyTitle "B", rowOnlyTitle "C"]

/-- Witness for C3 at a concrete three-row dataset, `top_n = 2`. -/
theorem C3_recommend_guarantees_witness :
    recommend dfC3 simZero "A" 2 =
      Except.ok (recLoop dfC3 0 2 (sortedDistances dfC3 simZero 0) []) ∧
    0 ∉ (pickRows dfC3 0 2 (sortedDistances dfC3 simZero 0) []).map Prod.fst ∧
    ((recLoop dfC3 0 2 (sortedDistances dfC3 simZero 0) []).map Rec.title).Nodup ∧
    (recLoop dfC3 0 2 (sortedDistances dfC3 simZero 0) []).length ≤ 2 ∧
    (recLoop dfC3 0 2 (sortedDistances dfC3 simZero 0) []).length =
      min 2 (distinctOtherTitles dfC3 0) :=
  C3_recommend_guarantees dfC3 simZero "A" 0 2 (by decide) (by decide)

/-- The number of lowercased-title matches equals the number of rows whose
lowercased title is `s`. -/
theorem lowerMatchRows_length (df : List Row) (s : String) :
    (lowerMatchRows df s).length =
      (df.filter (fun r => r.title.map pyLower == some s)).length := by
  unfold lowerMatchRows
  rw [List.length_map, ← List.countP_eq_length_filter,
    ← List.countP_eq_length_filter]
  conv_rhs => rw [← List.enum_map_snd df]
  rw [List.countP_map]
  rfl

/-- Counting a value among the lowercased stored titles equals counting the
rows whose lowercased title is that value. -/
theorem count_lower_titles (df : List Row) (s : String) :
    ((df.filterMap Row.title).map pyLower).count s =
      (df.filter (fun r => r.title.map pyLower == some s)).length := by
  induction df with
  | nil => rfl
  | cons r rest ih =>
    cases hr : r.title with
    | none =>
      simp only [List.filterMap_cons, hr, List.filter_cons, Option.map_none',
        beq_iff_eq, reduceCtorEq, if_false]
      exact ih
    | some t =>
      simp only [List.filterMap_cons, hr, List.map_cons, List.filter_cons,
        List.count_cons, Option.map_some', beq_iff_eq, Option.some.injEq]
      by_cases hts : pyLower t = s
      · rw [if_pos hts, if_pos hts, List.length_cons, ih]
      · rw [if_neg hts, if_neg hts, ih]
        omega

/-- Two distinct list elements mapping to the same value force that value to
be counted at least twice in the mapped list. -/
theorem two_le_count_map {α β : Type} [DecidableEq α] [DecidableEq β]
    (l : List α) (f : α → β) (s : β) (a b : α) (ha : a ∈ l) (hb : b ∈ l)
    (hab : a ≠ b) (hfa : f a = s) (hfb : f b = s) :
    2 ≤ (l.map f).count s := by
  rw [List.count_eq_countP, List.countP_map,
    List.countP_eq_length_filter]
  have ha' : a ∈ l.filter (fun x => f x == s) :=
    List.mem_filter.mpr ⟨ha, by simp [hfa]⟩
  have hb' : b ∈ l.filter (fun x => f x == s) :=
    List.mem_filter.mpr ⟨hb, by simp [hfb]⟩
  have hsub : ({a, b} : Finset α) ⊆ (l.filter (fun x => f x == s)).toFinset := by
    intro x hx
    simp only [Finset.mem_insert, Finset.mem_singleton] at hx
    rcases hx with rfl | rfl
    · simpa using ha'
    · simpa using hb'
  have hcard : ({a, b} : Finset α).card = 2 := by
    rw [Finset.card_insert_of_not_mem (by simpa using hab),
      Finset.card_singleton]
  calc 2 = ({a, b} : Finset α).card := hcard.symm
    _ ≤ (l.filter (fun x => f x == s)).toFinset.card := Finset.card_le_card hsub
    _ ≤ (l.filter (fun x => f x == s)).length := List.toFinset_card_le _

/-- **C8** (confirmed).  For a stored title `T` whose lowercased form is
unique among the lowercased stored titles, querying `recommend` with any case
variant `V` of `T` (same lowercase) gives exactly the result of querying with
`T` itself. -/
theorem C8_case_insensitive (df : List Row) (sim : Nat → Nat → ℚ) (n : Nat)
    (T V : String) (hT : T ∈ df.filterMap Row.title)
    (huniq : ((df.filterMap Row.title).map pyLower).count (pyLower T) = 1)
    (hV : pyLower V = pyLower T) :
    recommend df sim V n = recommend df sim T n := by
  obtain ⟨rT, hrT, hrTt⟩ := List.mem_filterMap.mp hT
  by_cases hVT : V = T
  · rw [hVT]
  · have hVnot : ∀ r ∈ df, r.title ≠ some V := by
      intro r hr hcontra
      have hVmem : V ∈ df.filterMap Row.title :=
        List.mem_filterMap.mpr ⟨r, hr, hcontra⟩
      have h2 := two_le_count_map (df.filterMap Row.title) pyLower (pyLower T)
        V T hVmem hT hVT hV rfl
      omega
    have hlowlen : (lowerMatchRows df (pyLower T)).length = 1 := by
      rw [lowerMatchRows_length, ← count_lower_titles]
      exact huniq
    have hexle : (exactMatchRows df T).length ≤ 1 := by
      rw [exactMatchRows_length]
      calc (df.filter (fun r => r.title == some T)).length
          ≤ (df.filter
              (fun r => r.title.map pyLower == some (pyLower T))).length := by
            rw [← List.countP_eq_length_filter, ← List.countP_eq_length_filter]
            refine List.countP_mono_left ?_
            intro r hr hp
            have hrt : r.title = some T := by simpa using hp
            simp [hrt]
        _ = 1 := by rw [← lowerMatchRows_length]; exact hlowlen
    have hexge : 1 ≤ (exactMatchRows df T).length := by
      rw [exactMatchRows_length, ← List.countP_eq_length_filter]
      have hpos : 0 < List.countP (fun r => r.title == some T) df :=
        List.countP_pos_iff.mpr ⟨rT, hrT, by simp [hrTt]⟩
      omega
    have hexlen : (exactMatchRows df T).length = 1 :=
      le_antisymm hexle hexge
    have hsub : (exactMatchRows df T).Sublist (lowerMatchRows df (pyLower T)) := by
      unfold exactMatchRows lowerMatchRows
      refine List.Sublist.map _ ?_
      refine List.monotone_filter_right _ ?_
      intro p hp
      have hpt : p.2.title = some T := by simpa using hp
      simp [hpt]
    have heq : exactMatchRows df T = lowerMatchRows df (pyLower T) :=
      hsub.eq_of_length (by rw [hexlen, hlowlen])
    have hmemT : memLabel (title_to_index df) T = true := by
      rw [memLabel_iff_lookup_ne_nil, lookup_exact_eq]
      intro hnil
      rw [hnil] at hexlen
      simp at hexlen
    have hresT : resolve df T = exactMatchRows df T := by
      unfold resolve
      rw [if_pos hmemT, lookup_exact_eq]
    have hmemV : ¬ memLabel (title_to_index df) V = true := by
      rw [memLabel_iff_lookup_ne_nil, lookup_exact_eq, ne_eq, not_not]
      unfold exactMatchRows
      rw [List.map_eq_nil_iff, List.filter_eq_nil_iff]
      intro p hp
      have hpmem : p.2 ∈ df := by
        rw [← List.enum_map_snd df]
        exact List.mem_map_of_mem _ hp
      simpa using hVnot p.2 hpmem
    have hmemVlow : memLabel (title_to_index_lower df) (pyLower V) = true := by
      rw [hV, memLabel_iff_lookup_ne_nil, lookup_lower_eq]
      intro hnil
      rw [hnil] at hlowlen
      simp at hlowlen
    have hresV : resolve df V = exactMatchRows df T := by
      unfold resolve
      rw [if_neg hmemV, if_pos hmemVlow, lookup_lower_eq, hV, ← heq]
    unfold recommend
    rw [hresV, hresT]

def dfC8 : List Row := [rowOnlyTitle "Naruto", rowOnlyTitle "One Piece"]

/-- Witness for C8: `"NARUTO"` and the stored `"Naruto"` give identical
results. -/
theorem C8_case_insensitive_witness :
    recommend dfC8 simZero "NARUTO" 5 = recommend dfC8 simZero "Naruto" 5 :=
  C8_case_insensitive dfC8 simZero 5 "Naruto" "NARUTO"
    (by decide) (by decide) (by decide)

/-- **C4** (counterexample).  On a feature matrix with an all-zero row —
possible when TF-IDF pruning (min_df/max_df/max_features) removes every term
of a document — sklearn's zero-norm convention (divide by 1 instead of 0)
makes the diagonal entry 0, not 1, so "every diagonal entry equals 1.0" fails
as stated. -/
theorem C4_counterexample :
    cosine_similarity (fun _ _ => (0 : ℝ) : Fin 1 → Fin 1 → ℝ) 0 0 = 0 ∧
    cosine_similarity (fun _ _ => (0 : ℝ) : Fin 1 → Fin 1 → ℝ) 0 0 ≠ 1 := by
  have h : cosine_similarity (fun _ _ => (0 : ℝ) : Fin 1 → Fin 1 → ℝ) 0 0 = 0 := by
    unfold cosine_similarity rowNormFactor
    simp [dotR]
  exact ⟨h, by rw [h]; norm_num⟩

/-- **C4** (amended).  For a feature matrix with non-negative entries (as
TF-IDF produces): the similarity matrix is symmetric, every entry lies in
`[0, 1]`, and every diagonal entry of a row with a NONZERO feature vector
equals 1 (a zero row gets diagonal 0 instead, per the counterexample). -/
theorem C4_amended {m n : ℕ} (X : Fin m → Fin n → ℝ)
    (hX : ∀ i k, 0 ≤ X i k) :
    (∀ i j, cosine_similarity X i j = cosine_similarity X j i) ∧
    (∀ i j, 0 ≤ cosine_similarity X i j ∧ cosine_similarity X i j ≤ 1) ∧
    (∀ i, dotR (X i) (X i) ≠ 0 → cosine_similarity X i i = 1) := by
  have hsymm : ∀ v w : Fin n → ℝ, dotR v w = dotR w v := by
    intro v w
    unfold dotR
    exact Finset.sum_congr rfl (fun k _ => mul_comm _ _)
  have hdnn : ∀ i, 0 ≤ dotR (X i) (X i) := fun i =>
    Finset.sum_nonneg (fun k _ => mul_self_nonneg _)
  have hdot_nn : ∀ i j, 0 ≤ dotR (X i) (X j) := fun i j =>
    Finset.sum_nonneg (fun k _ => mul_nonneg (hX i k) (hX j k))
  have hnf_pos : ∀ v : Fin n → ℝ, 0 < rowNormFactor v := by
    intro v
    unfold rowNormFactor
    split_ifs with h
    · norm_num
    · exact lt_of_le_of_ne (Real.sqrt_nonneg _) (Ne.symm h)
  have hCS : ∀ i j, dotR (X i) (X j) ≤
      Real.sqrt (dotR (X i) (X i)) * Real.sqrt (dotR (X j) (X j)) := by
    intro i j
    have h1 : dotR (X i) (X j) * dotR (X i) (X j) ≤
        dotR (X i) (X i) * dotR (X j) (X j) := by
      have h2 := Finset.sum_mul_sq_le_sq_mul_sq Finset.univ
        (fun k => X i k) (fun k => X j k)
      simpa [dotR, pow_two] using h2
    calc dotR (X i) (X j)
        = Real.sqrt (dotR (X i) (X j) * dotR (X i) (X j)) :=
          (Real.sqrt_mul_self (hdot_nn i j)).symm
      _ ≤ Real.sqrt (dotR (X i) (X i) * dotR (X j) (X j)) :=
          Real.sqrt_le_sqrt h1
      _ = Real.sqrt (dotR (X i) (X i)) * Real.sqrt (dotR (X j) (X j)) :=
          Real.sqrt_mul (hdnn i) _
  have hzero_row : ∀ i, Real.sqrt (dotR (X i) (X i)) = 0 → ∀ k, X i k = 0 := by
    intro i hi k
    have hd0 : dotR (X i) (X i) = 0 := (Real.sqrt_eq_zero (hdnn i)).mp hi
    have hall := (Finset.sum_eq_zero_iff_of_nonneg
      (fun k _ => mul_self_nonneg (X i k))).mp hd0
    exact mul_self_eq_zero.mp (hall k (Finset.mem_univ k))
  have hub : ∀ i j, dotR (X i) (X j) ≤
      rowNormFactor (X i) * rowNormFactor (X j) := by
    intro i j
    by_cases hi : Real.sqrt (dotR (X i) (X i)) = 0
    · have hz : dotR (X i) (X j) = 0 :=
        Finset.sum_eq_zero (fun k _ => by rw [hzero_row i hi k, zero_mul])
      rw [hz]
      exact le_of_lt (mul_pos (hnf_pos _) (hnf_pos _))
    · by_cases hj : Real.sqrt (dotR (X j) (X j)) = 0
      · have hz : dotR (X i) (X j) = 0 :=
          Finset.sum_eq_zero (fun k _ => by rw [hzero_row j hj k, mul_zero])
        rw [hz]
        exact le_of_lt (mul_pos (hnf_pos _) (hnf_pos _))
      · unfold rowNormFactor
        rw [if_neg hi, if_neg hj]
        exact hCS i j
  refine ⟨?_, ?_, ?_⟩
  · intro i j
    unfold cosine_similarity
    rw [hsymm (X i) (X j), mul_comm]
  · intro i j
    constructor
    · exact div_nonneg (hdot_nn i j)
        (le_of_lt (mul_pos (hnf_pos _) (hnf_pos _)))
    · exact (div_le_one (mul_pos (hnf_pos _) (hnf_pos _))).mpr (hub i j)
  · intro i hne
    unfold cosine_similarity rowNormFactor
    rw [if_neg (fun hs => hne ((Real.sqrt_eq_zero (hdnn i)).mp hs)),
      Real.mul_self_sqrt (hdnn i)]
    exact div_self hne

/-- Witness feature matrix for C4: the 2×2 identity pattern. -/
noncomputable def featC4 : Fin 2 → Fin 2 → ℝ := fun i j => if i = j then 1 else 0

/-- Witness for C4's amended statement at a concrete non-negative matrix. -/
theorem C4_amended_witness :
    (∀ i j, cosine_similarity featC4 i j = cosine_similarity featC4 j i) ∧
    (∀ i j, 0 ≤ cosine_similarity featC4 i j ∧
      cosine_similarity featC4 i j ≤ 1) ∧
    (∀ i, dotR (featC4 i) (featC4 i) ≠ 0 → cosine_similarity featC4 i i = 1) :=
  C4_amended featC4 (by
    intro i k
    unfold featC4
    split_ifs <;> simp)
